/-
Verification of the injx dependency-injection core against its specification.

Shallow embedding of:
  * `src/injx/dependencies.py` — the batch resolver `Dependencies`
    (lazy sync/async resolution, type-keyed cached mapping, dunder protocol);
  * `src/pyinj/provider_record.py` — the immutable `ProviderRecord` with its
    precomputed cleanup strategy;
  * the layered scope store of `injx/contextual.py` (that file is not in the
    source tree; the store is modelled from the spec, see `ScopeStore`).

Modelling conventions:
  * a Python type object is identified by its `__name__` (`Ty := String`);
  * a resolved instance is a `Val := Nat` (value equality models `is` on the
    instances a container hands out);
  * the container is stateful: `get`/`aget` take and return a container state
    `σ`, so that distinct calls may produce distinct instances;
  * every operation on a `Dependencies` object returns an `OpOut`: the
    outcome (`Except` models raised exceptions), the post-state of the
    object, the post-state of the container, and the ordered list of
    container calls (`get`/`aget`) the operation performed — an empty list
    means no provider factory ran and no container lookup happened;
  * Python's insertion-ordered `dict` is an association list (`PyDict`)
    whose `insert` overwrites in place, as the dict comprehension in
    `Dependencies.resolve` and the `dict(zip(...))` in `_resolve_async` do;
  * `asyncio.gather` is modelled under deterministic cooperative scheduling
    in task-creation order: every task runs to completion (gather does not
    cancel siblings), and the first error in task order propagates.
-/

import Mathlib

namespace Injx

/-- A Python type object, identified by its `__name__`. -/
abbrev Ty := String

/-- A resolved instance produced by a container. -/
abbrev Val := Nat

/-- Exceptions observable on the `Dependencies` surface:
`ResolutionError` propagated verbatim from the container,
`KeyError` from `__getitem__`, and the (unreachable) `RuntimeError`
branch of `__getitem__`. -/
inductive DepsError where
  | resolutionError (msg : String)
  | keyError (msg : String)
  | runtimeError (msg : String)
deriving DecidableEq, Repr

/-- Python's insertion-ordered `dict[type, Any]`, as an association list. -/
abbrev PyDict := List (Ty × Val)

namespace PyDict

/-- `m[k] = v`: overwrite in place if `k` is present, else append. -/
def insert : PyDict → Ty → Val → PyDict
  | [], k, v => [(k, v)]
  | (k', v') :: rest, k, v =>
    if k' = k then (k, v) :: rest else (k', v') :: insert rest k v

/-- `m.get(k)`: the value stored under `k`, if any. -/
def lookup : PyDict → Ty → Option Val
  | [], _ => none
  | (k', v') :: rest, k => if k' = k then some v' else lookup rest k

/-- `k in m`. -/
def hasKey (m : PyDict) (k : Ty) : Bool := (m.lookup k).isSome

/-- The key view of the dict, in insertion order. -/
def keys (m : PyDict) : List Ty := m.map Prod.fst

theorem lookup_insert (m : PyDict) (k q : Ty) (v : Val) :
    (m.insert k v).lookup q = if k = q then some v else m.lookup q := by
  induction m with
  | nil =>
    by_cases h : k = q
    · simp [insert, lookup, h]
    · simp [insert, lookup, h]
  | cons p rest ih =>
    obtain ⟨k₀, v₀⟩ := p
    by_cases h0 : k₀ = k
    · subst h0
      by_cases h1 : k₀ = q
      · simp [insert, lookup, h1]
      · simp [insert, lookup, h1]
    · by_cases h1 : k₀ = q
      · subst h1
        have hne : k ≠ k₀ := fun h => h0 h.symm
        simp [insert, lookup, h0, hne, ih]
      · simp [insert, lookup, h0, h1, ih]

theorem keys_insert (m : PyDict) (k : Ty) (v : Val) :
    (m.insert k v).keys = if m.hasKey k then m.keys else m.keys ++ [k] := by
  induction m with
  | nil => simp [insert, keys, hasKey, lookup]
  | cons p rest ih =>
    obtain ⟨k₀, v₀⟩ := p
    by_cases h0 : k₀ = k
    · subst h0
      simp [insert, keys, hasKey, lookup]
    · have hk : hasKey ((k₀, v₀) :: rest) k = hasKey rest k := by
        simp [hasKey, lookup, h0]
      have hkeys : keys ((k₀, v₀) :: rest) = k₀ :: keys rest := rfl
      rw [hk, hkeys]
      have hins : insert ((k₀, v₀) :: rest) k v = (k₀, v₀) :: insert rest k v := by
        simp [insert, h0]
      rw [hins]
      have : keys ((k₀, v₀) :: insert rest k v) = k₀ :: keys (insert rest k v) := rfl
      rw [this, ih]
      by_cases h1 : hasKey rest k <;> simp [h1]

theorem hasKey_iff_mem_keys (m : PyDict) (k : Ty) :
    m.hasKey k = true ↔ k ∈ m.keys := by
  induction m with
  | nil => simp [hasKey, lookup, keys]
  | cons p rest ih =>
    obtain ⟨k₀, v₀⟩ := p
    by_cases h0 : k₀ = k
    · subst h0
      simp [hasKey, lookup, keys]
    · have : hasKey ((k₀, v₀) :: rest) k = hasKey rest k := by
        simp [hasKey, lookup, h0]
      rw [this]
      have hkeys : keys ((k₀, v₀) :: rest) = k₀ :: keys rest := rfl
      have hne : k ≠ k₀ := fun h => h0 h.symm
      rw [hkeys]
      simp [hne, ih]

end PyDict

/-- The `ContainerProtocol` surface `Dependencies` uses: `get` (sync) and
`aget` (async), both stateful over a container state `σ`.  An `Except.error`
models a raised `ResolutionError`; its `String` is the exception message. -/
structure Container (σ : Type) where
  get : σ → Ty → Except String Val × σ
  aget : σ → Ty → Except String Val × σ

/-- `injx.dependencies.Dependencies.__slots__` minus the weakref slot:
the container, the declared tuple of requested types, and the
`_resolved` mapping (`none` until first resolution, per `__init__`). -/
structure Dependencies (σ : Type) where
  container : Container σ
  types : List Ty
  resolved : Option PyDict

/-- `Dependencies.__init__`: stores the container and the types and sets
`_resolved = None`.  It contains no call to any container method. -/
def Dependencies.init (c : Container σ) (types : List Ty) : Dependencies σ :=
  { container := c, types := types, resolved := none }

/-- Result of one operation on a `Dependencies` object: the outcome
(`Except` = raised exception), the post-state of the object, the post-state
of the container, and the container calls performed, in order. -/
structure OpOut (σ : Type) (α : Type) where
  out : Except DepsError α
  deps : Dependencies σ
  cst : σ
  calls : List Ty

/-- The dict comprehension `{t: self._container.get(t) for t in self._types}`:
runs `get` sequentially over the declared types, threading the container
state; stops at the first raised error.  Returns the produced `(type, value)`
pairs in call order, the final container state, and the failing type and
message if a call raised. -/
def compPairs (g : σ → Ty → Except String Val × σ) :
    σ → List Ty → List (Ty × Val) × σ × Option (Ty × String)
  | s, [] => ([], s, none)
  | s, t :: ts =>
    match g s t with
    | (.error e, s') => ([], s', some (t, e))
    | (.ok v, s') =>
      let r := compPairs g s' ts
      ((t, v) :: r.1, r.2.1, r.2.2)

/-- Build the Python dict from the produced pairs, in production order
(duplicate keys overwrite, so the last produced value wins). -/
def pairsDict (ps : List (Ty × Val)) : PyDict :=
  ps.foldl (fun acc p => acc.insert p.1 p.2) []

/-- `Dependencies.resolve`: no-op when `_resolved` is already set; otherwise
runs the dict comprehension and, only if every `get` succeeded, publishes the
mapping into `_resolved` (wrapped in `MappingProxyType`, i.e. immutable).
A raised `ResolutionError` propagates and `_resolved` stays `None`. -/
def Dependencies.resolveOp (d : Dependencies σ) (s : σ) : OpOut σ Unit :=
  match d.resolved with
  | some _ => ⟨.ok (), d, s, []⟩
  | none =>
    match compPairs d.container.get s d.types with
    | (ps, s', some fe) =>
      ⟨.error (.resolutionError fe.2), d, s', ps.map Prod.fst ++ [fe.1]⟩
    | (ps, s', none) =>
      ⟨.ok (), { d with resolved := some (pairsDict ps) }, s', ps.map Prod.fst⟩

/-- The `KeyError` message raised by `Dependencies.__getitem__` for a type
outside the declared set: names the requested type and lists the declared
types. -/
def keyErrorMsg (key : Ty) (types : List Ty) : String :=
  "Type " ++ key ++ " not in dependencies. Available: " ++
    String.intercalate ", " types

/-- `Dependencies.__getitem__`: resolves synchronously first if `_resolved`
is `None` (propagating any `ResolutionError`); then raises `KeyError` for a
key not in the mapping, else returns the cached instance.  The
`RuntimeError` branch is the type-checker guard that is unreachable once
`resolve()` returned. -/
def Dependencies.getItemOp (d : Dependencies σ) (s : σ) (key : Ty) :
    OpOut σ Val :=
  let r := d.resolveOp s
  match r.out with
  | .error e => ⟨.error e, r.deps, r.cst, r.calls⟩
  | .ok () =>
    match r.deps.resolved with
    | none => ⟨.error (.runtimeError "Failed to resolve dependencies"),
        r.deps, r.cst, r.calls⟩
    | some m =>
      match m.lookup key with
      | none => ⟨.error (.keyError (keyErrorMsg key r.deps.types)),
          r.deps, r.cst, r.calls⟩
      | some v => ⟨.ok v, r.deps, r.cst, r.calls⟩

/-- `Dependencies.get(key, default=None)`: resolves first if needed, then
`resolved.get(key, default)` — never raises `KeyError`. -/
def Dependencies.getOp (d : Dependencies σ) (s : σ) (key : Ty)
    (default : Option Val) : OpOut σ (Option Val) :=
  let r := d.resolveOp s
  match r.out with
  | .error e => ⟨.error e, r.deps, r.cst, r.calls⟩
  | .ok () =>
    match r.deps.resolved with
    | none => ⟨.ok default, r.deps, r.cst, r.calls⟩
    | some m =>
      ⟨.ok (match m.lookup key with
            | some v => some v
            | none => default), r.deps, r.cst, r.calls⟩

/-- `Dependencies.__contains__`: resolves first if needed, then
`resolved is not None and key in resolved`. -/
def Dependencies.containsOp (d : Dependencies σ) (s : σ) (key : Ty) :
    OpOut σ Bool :=
  let r := d.resolveOp s
  match r.out with
  | .error e => ⟨.error e, r.deps, r.cst, r.calls⟩
  | .ok () =>
    ⟨.ok (match r.deps.resolved with
          | none => false
          | some m => m.hasKey key), r.deps, r.cst, r.calls⟩

/-- `Dependencies.__len__`: resolves first if needed, then
`len(resolved) if resolved is not None else 0`. -/
def Dependencies.lenOp (d : Dependencies σ) (s : σ) : OpOut σ Nat :=
  let r := d.resolveOp s
  match r.out with
  | .error e => ⟨.error e, r.deps, r.cst, r.calls⟩
  | .ok () =>
    ⟨.ok (match r.deps.resolved with
          | none => 0
          | some m => m.length), r.deps, r.cst, r.calls⟩

/-- `Dependencies.__bool__`: `len(self._types) > 0`.  Looks only at the
declared tuple — it takes no container state and makes no container call. -/
def Dependencies.boolOp (d : Dependencies σ) : Bool :=
  decide (d.types.length > 0)

/-- The task list `[self._container.aget(t) for t in self._types]` run under
`asyncio.gather`, modelled with deterministic cooperative scheduling in
task-creation order: every task runs to completion (gather does not cancel
siblings on failure).  Returns each task's outcome paired with its type, and
the final container state. -/
def runGather (g : σ → Ty → Except String Val × σ) :
    σ → List Ty → List (Ty × Except String Val) × σ
  | s, [] => ([], s)
  | s, t :: ts =>
    let r := g s t
    let rest := runGather g r.2 ts
    ((t, r.1) :: rest.1, rest.2)

/-- The error `asyncio.gather` propagates: the first task outcome, in task
order, that is an error. -/
def firstGatherError : List (Ty × Except String Val) → Option String
  | [] => none
  | (_, .error e) :: _ => some e
  | (_, .ok _) :: rest => firstGatherError rest

/-- The successful task results, as `(type, value)` pairs in task order —
`zip(self._types, results)`. -/
def gatherPairs : List (Ty × Except String Val) → List (Ty × Val)
  | [] => []
  | (t, .ok v) :: rest => (t, v) :: gatherPairs rest
  | (_, .error _) :: rest => gatherPairs rest

/-- `Dependencies._resolve_async` (the body `__await__` delegates to): when
`_resolved` is `None`, creates one `aget` task per declared type, gathers
them, and only once all complete builds `dict(zip(self._types, results))`
and publishes it; if any task raised, the first raised error propagates and
`_resolved` stays `None`.  Always returns `self`. -/
def Dependencies.resolveAsyncOp (d : Dependencies σ) (s : σ) :
    OpOut σ (Dependencies σ) :=
  match d.resolved with
  | some _ => ⟨.ok d, d, s, []⟩
  | none =>
    let g := runGather d.container.aget s d.types
    match firstGatherError g.1 with
    | some e => ⟨.error (.resolutionError e), d, g.2, d.types⟩
    | none =>
      let d' := { d with resolved := some (pairsDict (gatherPairs g.1)) }
      ⟨.ok d', d', g.2, d.types⟩

/-- `injx.tokens.Scope`: the lifecycle scope of a token / provider. -/
inductive Scope where
  | singleton
  | session
  | request
  | transient
deriving DecidableEq, Repr

/-- An identity token as the scope store keys it: its name (identity) and
its declared scope (which selects the layer writes target). -/
structure SToken where
  name : String
  scope : Scope
deriving DecidableEq, Repr

/-- One layer of the scope store: a mapping from token name to instance. -/
abbrev Layer := PyDict

/-- Chained read over a stack of layers, innermost first. -/
def lookupLayers : List Layer → String → Option Val
  | [], _ => none
  | l :: ls, n =>
    match l.lookup n with
    | some v => some v
    | none => lookupLayers ls n

/-- Modelled from the spec: `injx/contextual.py` (`ContextualContainer`'s
layered scope storage) is absent from the source tree.  Modelled from spec
§3 "Scope Store", §4.3, and `tests/test_contextual.py`: four conceptual
layers; session and request layers are stacks (innermost first) so scopes
may nest; reads chain request → session → singleton through a live view
of the underlying maps (explicit state here, so every read sees the
current layers — the ChainMap-over-MappingProxyType pattern); writes
target the layer matching the token's own declared scope; the transient
layer stores nothing. -/
structure ScopeStore where
  singletons : Layer
  sessions : List Layer
  requests : List Layer
deriving Repr

/-- The empty store: no singletons, no open scopes. -/
def ScopeStore.empty : ScopeStore := ⟨[], [], []⟩

/-- `store_in_context`: write into the layer matching the token's declared
scope.  A session/request write with no open scope of that kind has no layer
to target; a transient "store" is a documented no-op. -/
def ScopeStore.store (st : ScopeStore) (t : SToken) (v : Val) : ScopeStore :=
  match t.scope with
  | .singleton => { st with singletons := st.singletons.insert t.name v }
  | .session =>
    match st.sessions with
    | [] => st
    | l :: ls => { st with sessions := l.insert t.name v :: ls }
  | .request =>
    match st.requests with
    | [] => st
    | l :: ls => { st with requests := l.insert t.name v :: ls }
  | .transient => st

/-- `resolve_from_context`: chained read, request layers (innermost first),
then session layers, then the singleton layer; absent is `None`. -/
def ScopeStore.resolve (st : ScopeStore) (t : SToken) : Option Val :=
  match lookupLayers st.requests t.name with
  | some v => some v
  | none =>
    match lookupLayers st.sessions t.name with
    | some v => some v
    | none => st.singletons.lookup t.name

/-- `session_scope` entry: push a fresh empty session layer. -/
def ScopeStore.enterSession (st : ScopeStore) : ScopeStore :=
  { st with sessions := [] :: st.sessions }

/-- `session_scope` exit: pop exactly the layer it pushed. -/
def ScopeStore.exitSession (st : ScopeStore) : ScopeStore :=
  { st with sessions := st.sessions.tail }

/-- `request_scope` entry: push a fresh empty request layer. -/
def ScopeStore.enterRequest (st : ScopeStore) : ScopeStore :=
  { st with requests := [] :: st.requests }

/-- `request_scope` exit: pop exactly the layer it pushed. -/
def ScopeStore.exitRequest (st : ScopeStore) : ScopeStore :=
  { st with requests := st.requests.tail }

/-- `_clear_singletons`: empty the singleton layer in place; open scope
stacks are untouched, and because reads chain live through the store, the
very next resolve sees the cleared layer. -/
def ScopeStore.clearSingletons (st : ScopeStore) : ScopeStore :=
  { st with singletons := [] }

/-- `clear_all_contexts`: empty every layer in place (open scope stacks
keep their depth, their layers are emptied). -/
def ScopeStore.clearAllContexts (st : ScopeStore) : ScopeStore :=
  { st with singletons := [],
            sessions := st.sessions.map (fun _ => []),
            requests := st.requests.map (fun _ => []) }

/-- `pyinj.cleanup_strategy.CleanupStrategy`: the four precomputed cleanup
strategies (the analyzer itself lives in `cleanup_strategy.py`, absent from
the source tree; theorems take it as an uninterpreted function). -/
inductive CleanupStrategy where
  | noCleanup
  | scopedResource
  | close
  | asyncClose
deriving DecidableEq, Repr

/-- `pyinj.provider_record.ProviderRecord`: frozen (immutable) record of a
provider with its precomputed cleanup strategy and scope.  `P` is the type
of provider callables. -/
structure ProviderRecord (P : Type) where
  provider : P
  cleanup : CleanupStrategy
  scope : Scope

/-- `ProviderRecord.create`: `cleanup = CleanupStrategy.analyze(provider)`
then `cls(provider=provider, cleanup=cleanup, scope=scope)`.  The second
component records the arguments `analyze` was invoked on, in order — the
body contains exactly the one call, on the given provider. -/
def ProviderRecord.create (analyze : P → CleanupStrategy) (provider : P)
    (scope : Scope) : ProviderRecord P × List P :=
  let cleanup := analyze provider
  ({ provider := provider, cleanup := cleanup, scope := scope }, [provider])

/-- The value of the last pair carrying key `k` in a production-ordered pair
list — what a Python dict built by inserting the pairs in order stores. -/
def lastVal : List (Ty × Val) → Ty → Option Val
  | [], _ => none
  | (t, v) :: rest, k =>
    match lastVal rest k with
    | some w => some w
    | none => if t = k then some v else none

theorem foldl_insert_lookup (ps : List (Ty × Val)) (acc : PyDict) (k : Ty) :
    (ps.foldl (fun a p => a.insert p.1 p.2) acc).lookup k =
      match lastVal ps k with
      | some w => some w
      | none => acc.lookup k := by
  induction ps generalizing acc with
  | nil => simp [lastVal]
  | cons p rest ih =>
    obtain ⟨t, v⟩ := p
    simp only [List.foldl_cons, lastVal]
    rw [ih]
    cases h : lastVal rest k with
    | some w => simp
    | none =>
      by_cases ht : t = k
      · simp [PyDict.lookup_insert, ht]
      · simp [PyDict.lookup_insert, ht]

theorem pairsDict_lookup (ps : List (Ty × Val)) (k : Ty) :
    (pairsDict ps).lookup k = lastVal ps k := by
  unfold pairsDict
  rw [foldl_insert_lookup]
  cases lastVal ps k <;> simp [PyDict.lookup]

theorem lastVal_isSome (ps : List (Ty × Val)) (k : Ty) :
    (lastVal ps k).isSome = true ↔ k ∈ ps.map Prod.fst := by
  induction ps with
  | nil => simp [lastVal]
  | cons p rest ih =>
    obtain ⟨t, v⟩ := p
    simp only [lastVal, List.map_cons, List.mem_cons]
    cases h : lastVal rest k with
    | some w =>
      simp only [Option.isSome_some, true_iff]
      right
      exact ih.mp (by simp [h])
    | none =>
      by_cases ht : t = k
      · simp [ht]
      · have hkt : ¬k = t := fun hk => ht hk.symm
        have hmem : k ∉ List.map Prod.fst rest := by
          intro hm
          have hs := ih.mpr hm
          rw [h] at hs
          simp at hs
        simp [if_neg ht, hkt, hmem]

theorem pairsDict_hasKey (ps : List (Ty × Val)) (k : Ty) :
    (pairsDict ps).hasKey k = true ↔ k ∈ ps.map Prod.fst := by
  unfold PyDict.hasKey
  rw [pairsDict_lookup]
  exact lastVal_isSome ps k

theorem keys_nodup_insert (m : PyDict) (k : Ty) (v : Val)
    (h : m.keys.Nodup) : (m.insert k v).keys.Nodup := by
  rw [PyDict.keys_insert]
  by_cases hk : m.hasKey k
  · simp [hk, h]
  · have hmem : k ∉ m.keys := fun hm => hk ((PyDict.hasKey_iff_mem_keys m k).mpr hm)
    simp [hk, List.nodup_append, h, hmem]

theorem pairsDict_keys_nodup (ps : List (Ty × Val)) :
    (pairsDict ps).keys.Nodup := by
  suffices h : ∀ acc : PyDict, acc.keys.Nodup →
      (ps.foldl (fun a p => a.insert p.1 p.2) acc).keys.Nodup by
    exact h [] (by simp [PyDict.keys])
  induction ps with
  | nil => intro acc hacc; simpa using hacc
  | cons p rest ih =>
    intro acc hacc
    simp only [List.foldl_cons]
    exact ih _ (keys_nodup_insert acc p.1 p.2 hacc)

theorem pairsDict_length (ps : List (Ty × Val)) :
    (pairsDict ps).length = (ps.map Prod.fst).toFinset.card := by
  have hnd := pairsDict_keys_nodup ps
  have hlen : (pairsDict ps).keys.length = (pairsDict ps).length :=
    List.length_map _ _
  have hset : (pairsDict ps).keys.toFinset = (ps.map Prod.fst).toFinset := by
    ext a
    simp only [List.mem_toFinset]
    rw [← PyDict.hasKey_iff_mem_keys, pairsDict_hasKey]
  calc (pairsDict ps).length = (pairsDict ps).keys.length := hlen.symm
    _ = (pairsDict ps).keys.toFinset.card := (List.toFinset_card_of_nodup hnd).symm
    _ = (ps.map Prod.fst).toFinset.card := by rw [hset]

theorem compPairs_fst {g : σ → Ty → Except String Val × σ} :
    ∀ (s : σ) (ts : List Ty) (ps : List (Ty × Val)) (s' : σ),
      compPairs g s ts = (ps, s', none) → ps.map Prod.fst = ts := by
  intro s ts
  induction ts generalizing s with
  | nil => intro ps s' h; simp [compPairs] at h; simp [h.1]
  | cons t rest ih =>
    intro ps s' h
    simp only [compPairs] at h
    cases hg : g s t with
    | mk o s₂ =>
      rw [hg] at h
      cases o with
      | error e => simp at h
      | ok v =>
        cases hc : compPairs g s₂ rest with
        | mk a b =>
          obtain ⟨b1, b2⟩ := b
          simp only [hc, Prod.mk.injEq] at h
          obtain ⟨h1, h2, h3⟩ := h
          subst h1
          subst h3
          simp only [List.map_cons, List.cons.injEq, true_and]
          exact ih s₂ a b1 hc

theorem runGather_fst {g : σ → Ty → Except String Val × σ} :
    ∀ (s : σ) (ts : List Ty), ((runGather g s ts).1).map Prod.fst = ts := by
  intro s ts
  induction ts generalizing s with
  | nil => simp [runGather]
  | cons t rest ih => simp [runGather, ih]

theorem gatherPairs_fst (rs : List (Ty × Except String Val))
    (h : firstGatherError rs = none) :
    (gatherPairs rs).map Prod.fst = rs.map Prod.fst := by
  induction rs with
  | nil => simp [gatherPairs]
  | cons r rest ih =>
    obtain ⟨t, o⟩ := r
    cases o with
    | error e => simp [firstGatherError] at h
    | ok v =>
      simp only [firstGatherError] at h
      simp [gatherPairs, ih h]

theorem lookupLayers_none (ls : List Layer) (n : String)
    (h : ∀ l ∈ ls, PyDict.lookup l n = none) : lookupLayers ls n = none := by
  induction ls with
  | nil => simp [lookupLayers]
  | cons l rest ih =>
    have hl := h l (by simp)
    simp only [lookupLayers, hl]
    exact ih (fun l' hl' => h l' (by simp [hl']))

theorem lookupLayers_cleared (ls : List Layer) (n : String) :
    lookupLayers (ls.map (fun _ => ([] : Layer))) n = none := by
  induction ls with
  | nil => simp [lookupLayers]
  | cons l rest ih => simpa [lookupLayers, PyDict.lookup] using ih

/-- The object after `self._resolved` has been assigned: same container,
same declared types, mapping published. -/
def Dependencies.withResolved (d : Dependencies σ) (m : PyDict) :
    Dependencies σ :=
  { d with resolved := some m }

theorem resolveOp_resolved (d : Dependencies σ) (s : σ) (m : PyDict)
    (hres : d.resolved = some m) : d.resolveOp s = ⟨.ok (), d, s, []⟩ := by
  unfold Dependencies.resolveOp
  rw [hres]

theorem resolveOp_ok_char (d : Dependencies σ) (s : σ) (ps : List (Ty × Val))
    (s' : σ) (hres : d.resolved = none)
    (h : compPairs d.container.get s d.types = (ps, s', none)) :
    d.resolveOp s =
      ⟨.ok (), d.withResolved (pairsDict ps), s', ps.map Prod.fst⟩ := by
  unfold Dependencies.resolveOp Dependencies.withResolved
  rw [hres, h]

theorem resolveOp_err_char (d : Dependencies σ) (s : σ) (ps : List (Ty × Val))
    (s' : σ) (tf : Ty) (e : String) (hres : d.resolved = none)
    (h : compPairs d.container.get s d.types = (ps, s', some (tf, e))) :
    d.resolveOp s =
      ⟨.error (.resolutionError e), d, s', ps.map Prod.fst ++ [tf]⟩ := by
  unfold Dependencies.resolveOp
  rw [hres, h]

theorem resolveAsyncOp_resolved (d : Dependencies σ) (s : σ) (m : PyDict)
    (hres : d.resolved = some m) : d.resolveAsyncOp s = ⟨.ok d, d, s, []⟩ := by
  unfold Dependencies.resolveAsyncOp
  rw [hres]

theorem resolveAsyncOp_ok_char (d : Dependencies σ) (s : σ)
    (hres : d.resolved = none)
    (h : firstGatherError (runGather d.container.aget s d.types).1 = none) :
    d.resolveAsyncOp s =
      ⟨.ok (d.withResolved
          (pairsDict (gatherPairs (runGather d.container.aget s d.types).1))),
        d.withResolved
          (pairsDict (gatherPairs (runGather d.container.aget s d.types).1)),
        (runGather d.container.aget s d.types).2, d.types⟩ := by
  unfold Dependencies.resolveAsyncOp Dependencies.withResolved
  rw [hres]
  simp only [h]

theorem resolveAsyncOp_err_char (d : Dependencies σ) (s : σ) (e : String)
    (hres : d.resolved = none)
    (h : firstGatherError (runGather d.container.aget s d.types).1 = some e) :
    d.resolveAsyncOp s =
      ⟨.error (.resolutionError e), d,
        (runGather d.container.aget s d.types).2, d.types⟩ := by
  unfold Dependencies.resolveAsyncOp
  rw [hres]
  simp only [h]

theorem getItemOp_resolved (d : Dependencies σ) (s : σ) (m : PyDict)
    (key : Ty) (hres : d.resolved = some m) :
    d.getItemOp s key =
      ⟨match m.lookup key with
       | none => .error (.keyError (keyErrorMsg key d.types))
       | some v => .ok v, d, s, []⟩ := by
  unfold Dependencies.getItemOp
  rw [resolveOp_resolved d s m hres]
  simp only [hres]
  cases m.lookup key <;> rfl

theorem getItemOp_resolveOk (d : Dependencies σ) (s : σ) (key : Ty)
    (ps : List (Ty × Val)) (s' : σ) (hres : d.resolved = none)
    (h : compPairs d.container.get s d.types = (ps, s', none)) :
    d.getItemOp s key =
      ⟨match (pairsDict ps).lookup key with
       | none => .error (.keyError (keyErrorMsg key d.types))
       | some v => .ok v,
       d.withResolved (pairsDict ps), s', ps.map Prod.fst⟩ := by
  unfold Dependencies.getItemOp
  rw [resolveOp_ok_char d s ps s' hres h]
  simp only [Dependencies.withResolved]
  cases (pairsDict ps).lookup key <;> rfl

theorem getItemOp_resolveErr (d : Dependencies σ) (s : σ) (key : Ty)
    (ps : List (Ty × Val)) (s' : σ) (tf : Ty) (e : String)
    (hres : d.resolved = none)
    (h : compPairs d.container.get s d.types = (ps, s', some (tf, e))) :
    d.getItemOp s key =
      ⟨.error (.resolutionError e), d, s', ps.map Prod.fst ++ [tf]⟩ := by
  unfold Dependencies.getItemOp
  rw [resolveOp_err_char d s ps s' tf e hres h]

theorem getOp_resolveOk (d : Dependencies σ) (s : σ) (key : Ty)
    (default : Option Val) (ps : List (Ty × Val)) (s' : σ)
    (hres : d.resolved = none)
    (h : compPairs d.container.get s d.types = (ps, s', none)) :
    d.getOp s key default =
      ⟨.ok (match (pairsDict ps).lookup key with
            | some v => some v
            | none => default),
       d.withResolved (pairsDict ps), s', ps.map Prod.fst⟩ := by
  unfold Dependencies.getOp
  rw [resolveOp_ok_char d s ps s' hres h]
  rfl

theorem containsOp_resolved (d : Dependencies σ) (s : σ) (m : PyDict)
    (key : Ty) (hres : d.resolved = some m) :
    d.containsOp s key = ⟨.ok (m.hasKey key), d, s, []⟩ := by
  unfold Dependencies.containsOp
  rw [resolveOp_resolved d s m hres]
  simp only [hres]

theorem containsOp_resolveOk (d : Dependencies σ) (s : σ) (key : Ty)
    (ps : List (Ty × Val)) (s' : σ) (hres : d.resolved = none)
    (h : compPairs d.container.get s d.types = (ps, s', none)) :
    d.containsOp s key =
      ⟨.ok ((pairsDict ps).hasKey key),
       d.withResolved (pairsDict ps), s', ps.map Prod.fst⟩ := by
  unfold Dependencies.containsOp
  rw [resolveOp_ok_char d s ps s' hres h]
  rfl

theorem lenOp_resolved (d : Dependencies σ) (s : σ) (m : PyDict)
    (hres : d.resolved = some m) :
    d.lenOp s = ⟨.ok m.length, d, s, []⟩ := by
  unfold Dependencies.lenOp
  rw [resolveOp_resolved d s m hres]
  simp only [hres]

theorem lenOp_resolveOk (d : Dependencies σ) (s : σ)
    (ps : List (Ty × Val)) (s' : σ) (hres : d.resolved = none)
    (h : compPairs d.container.get s d.types = (ps, s', none)) :
    d.lenOp s =
      ⟨.ok (pairsDict ps).length,
       d.withResolved (pairsDict ps), s', ps.map Prod.fst⟩ := by
  unfold Dependencies.lenOp
  rw [resolveOp_ok_char d s ps s' hres h]
  rfl

/-- A demo container over a call counter: each call hands out the current
counter value as the instance and increments it, so successive calls
produce distinct instances. -/
def counterContainer : Container Nat where
  get := fun s _ => (.ok s, s + 1)
  aget := fun s _ => (.ok s, s + 1)

/-- A demo container with no registrations: every call raises. -/
def failingContainer : Container Nat where
  get := fun s _ => (.error "ResolutionError: no provider registered for A", s)
  aget := fun s _ => (.error "ResolutionError: no provider registered for A", s)

/-- A freshly constructed `Dependencies(counterContainer, (DB, Cache))`. -/
def demoDeps : Dependencies Nat :=
  Dependencies.init counterContainer ["DB", "Cache"]

/-- `demoDeps` after a successful first resolution. -/
def resolvedDemoDeps : Dependencies Nat :=
  demoDeps.withResolved [("DB", 0), ("Cache", 1)]

/-- C2: awaiting a not-yet-resolved `Dependencies` creates one `aget` task
per declared type and runs them all — the container call trace is exactly
the declared tuple even when a task fails, since gather does not cancel
siblings — assembles the gathered results into the published mapping only
when every task succeeded (one entry per declared type), and otherwise
propagates the first raised error, in task order, to the awaiter with
nothing cached. -/
theorem C2_await_gathers_all_members (d : Dependencies σ) (s : σ)
    (hres : d.resolved = none) :
    (d.resolveAsyncOp s).calls = d.types ∧
    ((runGather d.container.aget s d.types).1).map Prod.fst = d.types ∧
    (firstGatherError (runGather d.container.aget s d.types).1 = none →
      (d.resolveAsyncOp s).out =
        .ok (d.withResolved
          (pairsDict (gatherPairs (runGather d.container.aget s d.types).1))) ∧
      (d.resolveAsyncOp s).deps.resolved =
        some (pairsDict (gatherPairs (runGather d.container.aget s d.types).1)) ∧
      (gatherPairs (runGather d.container.aget s d.types).1).map Prod.fst
        = d.types) ∧
    (∀ e, firstGatherError (runGather d.container.aget s d.types).1 = some e →
      (d.resolveAsyncOp s).out = .error (.resolutionError e) ∧
      (d.resolveAsyncOp s).deps.resolved = none) := by
  refine ⟨?_, runGather_fst s d.types, ?_, ?_⟩
  · cases hge : firstGatherError (runGather d.container.aget s d.types).1 with
    | none => rw [resolveAsyncOp_ok_char d s hres hge]
    | some e => rw [resolveAsyncOp_err_char d s e hres hge]
  · intro hge
    rw [resolveAsyncOp_ok_char d s hres hge]
    refine ⟨rfl, rfl, ?_⟩
    rw [gatherPairs_fst _ hge]
    exact runGather_fst s d.types
  · intro e hge
    rw [resolveAsyncOp_err_char d s e hres hge]
    exact ⟨rfl, hres⟩

/-- Witness for C2: a fresh two-member `Dependencies` awaited once issues
exactly one `aget` per declared member. -/
theorem C2_await_gathers_all_members_witness :
    demoDeps.resolved = none ∧
    (demoDeps.resolveAsyncOp 0).calls = ["DB", "Cache"] :=
  ⟨rfl, (C2_await_gathers_all_members demoDeps 0 rfl).1⟩

/-- C3: constructing a `Dependencies` only stores the container and the
declared tuple (`_resolved = None`) — it performs no container call, so the
container state is untouched; the first indexed access resolves every
declared member through the synchronous path, sequentially in declared
order (the call trace is the declared tuple, the container state threaded
call by call), and publishes the results as an immutable mapping. -/
theorem C3_construction_lazy_first_access_resolves (c : Container σ)
    (ts : List Ty) (s : σ) (key : Ty) (ps : List (Ty × Val)) (s' : σ)
    (h : compPairs c.get s ts = (ps, s', none)) :
    Dependencies.init c ts = ⟨c, ts, none⟩ ∧
    (Dependencies.init c ts).resolved = none ∧
    ((Dependencies.init c ts).getItemOp s key).calls = ts ∧
    ((Dependencies.init c ts).getItemOp s key).deps.resolved
      = some (pairsDict ps) ∧
    ((Dependencies.init c ts).getItemOp s key).cst = s' := by
  have hchar := getItemOp_resolveOk (Dependencies.init c ts) s key ps s' rfl h
  refine ⟨rfl, rfl, ?_, ?_, ?_⟩
  · rw [hchar]
    exact compPairs_fst s ts ps s' h
  · rw [hchar]
    rfl
  · rw [hchar]

/-- Witness for C3: the fresh two-member `Dependencies`, first accessed with
`deps[DB]`, resolves both members in declared order. -/
theorem C3_construction_lazy_first_access_resolves_witness :
    compPairs counterContainer.get 0 ["DB", "Cache"]
      = ([("DB", 0), ("Cache", 1)], 2, none) ∧
    ((Dependencies.init counterContainer ["DB", "Cache"]).getItemOp 0
      "DB").calls = ["DB", "Cache"] :=
  ⟨rfl, (C3_construction_lazy_first_access_resolves counterContainer
    ["DB", "Cache"] 0 "DB" [("DB", 0), ("Cache", 1)] 2 rfl).2.2.1⟩

/-- C4: on a `Dependencies` whose first resolution succeeded, every further
`resolve()` (sync or async) and every further indexed access performs no
container call and leaves the object and the container untouched, and
indexed access for a declared type returns the identical cached instance
each time. -/
theorem C4_resolution_idempotent_cached (d : Dependencies σ) (s : σ)
    (m : PyDict) (hres : d.resolved = some m) :
    d.resolveOp s = ⟨.ok (), d, s, []⟩ ∧
    d.resolveAsyncOp s = ⟨.ok d, d, s, []⟩ ∧
    (∀ key, (d.getItemOp s key).calls = [] ∧
            (d.getItemOp s key).cst = s ∧
            (d.getItemOp s key).deps = d) ∧
    (∀ key v, m.lookup key = some v → (d.getItemOp s key).out = .ok v) := by
  refine ⟨resolveOp_resolved d s m hres, resolveAsyncOp_resolved d s m hres,
    ?_, ?_⟩
  · intro key
    rw [getItemOp_resolved d s m key hres]
    exact ⟨rfl, rfl, rfl⟩
  · intro key v hv
    rw [getItemOp_resolved d s m key hres, hv]

/-- Witness for C4: the resolved demo `Dependencies` serves `deps[DB]` from
the cache with no container call. -/
theorem C4_resolution_idempotent_cached_witness :
    resolvedDemoDeps.resolved = some [("DB", 0), ("Cache", 1)] ∧
    (resolvedDemoDeps.getItemOp 5 "DB").calls = [] ∧
    (resolvedDemoDeps.getItemOp 5 "DB").out = .ok 0 :=
  ⟨rfl,
   ((C4_resolution_idempotent_cached resolvedDemoDeps 5
      [("DB", 0), ("Cache", 1)] rfl).2.2.1 "DB").1,
   (C4_resolution_idempotent_cached resolvedDemoDeps 5
      [("DB", 0), ("Cache", 1)] rfl).2.2.2 "DB" 0 (by decide)⟩

/-- C9: awaiting a `Dependencies` returns the very object it was called on
(`return self`): the outcome of the await is the post-state itself, with
the same container and the same declared tuple; an already-resolved object
awaited again performs no `aget` call and is returned unchanged, so the
await is idempotent. -/
theorem C9_await_returns_same_object (d : Dependencies σ) (s s' : σ) :
    (∀ m, d.resolved = some m → d.resolveAsyncOp s = ⟨.ok d, d, s, []⟩) ∧
    (∀ d', (d.resolveAsyncOp s).out = .ok d' →
      (d.resolveAsyncOp s).deps = d' ∧
      d'.container = d.container ∧
      d'.types = d.types ∧
      d'.resolveAsyncOp s' = ⟨.ok d', d', s', []⟩) := by
  constructor
  · intro m hm
    exact resolveAsyncOp_resolved d s m hm
  · intro d' hout
    cases hres : d.resolved with
    | some m =>
      rw [resolveAsyncOp_resolved d s m hres] at hout
      have hd : d = d' := by simpa using hout
      subst hd
      rw [resolveAsyncOp_resolved d s m hres]
      exact ⟨rfl, rfl, rfl, resolveAsyncOp_resolved d s' m hres⟩
    | none =>
      cases hge : firstGatherError (runGather d.container.aget s d.types).1 with
      | some e =>
        rw [resolveAsyncOp_err_char d s e hres hge] at hout
        simp at hout
      | none =>
        have hchar := resolveAsyncOp_ok_char d s hres hge
        rw [hchar] at hout
        have hd : d.withResolved
            (pairsDict (gatherPairs (runGather d.container.aget s d.types).1))
            = d' := by simpa using hout
        subst hd
        rw [hchar]
        exact ⟨rfl, rfl, rfl, resolveAsyncOp_resolved _ s' _ rfl⟩

/-- Witness for C9: awaiting the already-resolved demo `Dependencies`
returns it unchanged with no `aget` call. -/
theorem C9_await_returns_same_object_witness :
    resolvedDemoDeps.resolved = some [("DB", 0), ("Cache", 1)] ∧
    resolvedDemoDeps.resolveAsyncOp 7
      = ⟨.ok resolvedDemoDeps, resolvedDemoDeps, 7, []⟩ :=
  ⟨rfl, (C9_await_returns_same_object resolvedDemoDeps 7 7).1
    [("DB", 0), ("Cache", 1)] rfl⟩

/-- A fresh `Dependencies` over the failing container: its single declared
member has no provider, so resolution raises. -/
def unresolvableDeps : Dependencies Nat :=
  Dependencies.init failingContainer ["A"]

/-- C6: indexed access for a type outside the declared tuple raises
`KeyError` whose message names the requested type (and lists the declared
ones), while a declared member whose provider fails raises the propagated
`ResolutionError` during resolution itself, before anything is cached —
after such a failure `_resolved` is still unset. -/
theorem C6_keyerror_undeclared_resolutionerror_uncached (d : Dependencies σ)
    (s : σ) (key : Ty) (hres : d.resolved = none) :
    (∀ ps s', compPairs d.container.get s d.types = (ps, s', none) →
      key ∉ d.types →
      (d.getItemOp s key).out
        = .error (.keyError (keyErrorMsg key d.types)) ∧
      keyErrorMsg key d.types
        = "Type " ++ key ++ " not in dependencies. Available: "
            ++ String.intercalate ", " d.types) ∧
    (∀ ps s' tf e,
      compPairs d.container.get s d.types = (ps, s', some (tf, e)) →
      (d.getItemOp s key).out = .error (.resolutionError e) ∧
      (d.getItemOp s key).deps.resolved = none) := by
  constructor
  · intro ps s' h hkey
    have hfst := compPairs_fst s d.types ps s' h
    have hnk : (pairsDict ps).lookup key = none := by
      have hk : ¬(pairsDict ps).hasKey key = true := by
        rw [pairsDict_hasKey, hfst]
        exact hkey
      unfold PyDict.hasKey at hk
      exact Option.not_isSome_iff_eq_none.mp hk
    rw [getItemOp_resolveOk d s key ps s' hres h]
    constructor
    · rw [hnk]
    · rfl
  · intro ps s' tf e h
    rw [getItemOp_resolveErr d s key ps s' tf e hres h]
    exact ⟨rfl, hres⟩

/-- Witness for C6: `deps[Logger]` on the two-member demo raises `KeyError`
naming `Logger`; `deps[A]` on the unresolvable deps raises the propagated
`ResolutionError` and caches nothing. -/
theorem C6_keyerror_undeclared_resolutionerror_uncached_witness :
    demoDeps.resolved = none ∧ "Logger" ∉ demoDeps.types ∧
    (demoDeps.getItemOp 0 "Logger").out
      = .error (.keyError (keyErrorMsg "Logger" ["DB", "Cache"])) ∧
    (unresolvableDeps.getItemOp 0 "A").out
      = .error (.resolutionError
          "ResolutionError: no provider registered for A") ∧
    (unresolvableDeps.getItemOp 0 "A").deps.resolved = none :=
  ⟨rfl, by decide,
   ((C6_keyerror_undeclared_resolutionerror_uncached demoDeps 0 "Logger"
      rfl).1 [("DB", 0), ("Cache", 1)] 2 rfl (by decide)).1,
   ((C6_keyerror_undeclared_resolutionerror_uncached unresolvableDeps 0 "A"
      rfl).2 [] 0 "A" "ResolutionError: no provider registered for A" rfl).1,
   ((C6_keyerror_undeclared_resolutionerror_uncached unresolvableDeps 0 "A"
      rfl).2 [] 0 "A" "ResolutionError: no provider registered for A" rfl).2⟩

/-- C8: when every declared member resolves successfully, `deps.get(T,
default)` returns the resolved instance for a declared `T` and the supplied
default for an undeclared `T`; unlike indexed access it never raises
`KeyError`. -/
theorem C8_get_with_default (d : Dependencies σ) (s : σ) (key : Ty)
    (default : Option Val) (ps : List (Ty × Val)) (s' : σ)
    (hres : d.resolved = none)
    (h : compPairs d.container.get s d.types = (ps, s', none)) :
    (key ∈ d.types → ∃ v, (pairsDict ps).lookup key = some v ∧
      (d.getOp s key default).out = .ok (some v)) ∧
    (key ∉ d.types → (d.getOp s key default).out = .ok default) ∧
    (∀ msg, (d.getOp s key default).out ≠ .error (.keyError msg)) := by
  have hchar := getOp_resolveOk d s key default ps s' hres h
  have hfst := compPairs_fst s d.types ps s' h
  refine ⟨?_, ?_, ?_⟩
  · intro hkey
    have hk : (pairsDict ps).hasKey key = true := by
      rw [pairsDict_hasKey, hfst]
      exact hkey
    unfold PyDict.hasKey at hk
    obtain ⟨v, hv⟩ := Option.isSome_iff_exists.mp hk
    refine ⟨v, hv, ?_⟩
    rw [hchar, hv]
  · intro hkey
    have hnk : (pairsDict ps).lookup key = none := by
      have hk : ¬(pairsDict ps).hasKey key = true := by
        rw [pairsDict_hasKey, hfst]
        exact hkey
      unfold PyDict.hasKey at hk
      exact Option.not_isSome_iff_eq_none.mp hk
    rw [hchar, hnk]
  · intro msg
    rw [hchar]
    simp

/-- Witness for C8: on the two-member demo, `get(DB, 9)` returns the cached
instance and `get(Logger, 9)` returns the default. -/
theorem C8_get_with_default_witness :
    demoDeps.resolved = none ∧ "DB" ∈ demoDeps.types ∧
    (demoDeps.getOp 0 "Logger" (some 9)).out = .ok (some 9) :=
  ⟨rfl, by decide,
   (C8_get_with_default demoDeps 0 "Logger" (some 9)
      [("DB", 0), ("Cache", 1)] 2 rfl rfl).2.1 (by decide)⟩

/-- C10: with a declared tuple containing a type more than once, synchronous
resolution calls the container's `get` once per occurrence (the call trace
is the tuple itself, so per-type call counts equal occurrence counts), but
the cached mapping keeps one entry per distinct type, the last produced
value winning, and `len(deps)` afterwards is the number of distinct declared
types. -/
theorem C10_duplicates_once_per_occurrence_last_wins (d : Dependencies σ)
    (s : σ) (ps : List (Ty × Val)) (s' : σ) (hres : d.resolved = none)
    (h : compPairs d.container.get s d.types = (ps, s', none)) :
    (d.resolveOp s).calls = d.types ∧
    (∀ t, (d.resolveOp s).calls.count t = d.types.count t) ∧
    (d.resolveOp s).deps.resolved = some (pairsDict ps) ∧
    (∀ t, (pairsDict ps).lookup t = lastVal ps t) ∧
    (pairsDict ps).keys.Nodup ∧
    (d.lenOp s).out = .ok d.types.toFinset.card := by
  have hfst := compPairs_fst s d.types ps s' h
  have hchar := resolveOp_ok_char d s ps s' hres h
  refine ⟨?_, ?_, ?_, ?_, pairsDict_keys_nodup ps, ?_⟩
  · simp only [hchar]
    exact hfst
  · intro t
    simp only [hchar]
    rw [hfst]
  · simp only [hchar]
    rfl
  · intro t
    exact pairsDict_lookup ps t
  · simp only [lenOp_resolveOk d s ps s' hres h]
    rw [pairsDict_length, hfst]

/-- Witness for C10: declared tuple `(A, A, B)` under the counter container:
three `get` calls, a two-entry mapping in which `A`'s second (distinct)
instance won, and a reported length of two. -/
theorem C10_duplicates_once_per_occurrence_last_wins_witness :
    (Dependencies.init counterContainer ["A", "A", "B"]).resolved = none ∧
    compPairs counterContainer.get 0 ["A", "A", "B"]
      = ([("A", 0), ("A", 1), ("B", 2)], 3, none) ∧
    ((Dependencies.init counterContainer ["A", "A", "B"]).resolveOp 0).calls
      = ["A", "A", "B"] ∧
    pairsDict [("A", 0), ("A", 1), ("B", 2)] = [("A", 1), ("B", 2)] ∧
    (["A", "A", "B"] : List Ty).toFinset.card = 2 ∧
    ((Dependencies.init counterContainer ["A", "A", "B"]).lenOp 0).out
      = .ok (["A", "A", "B"] : List Ty).toFinset.card :=
  ⟨rfl, rfl,
   (C10_duplicates_once_per_occurrence_last_wins
      (Dependencies.init counterContainer ["A", "A", "B"]) 0
      [("A", 0), ("A", 1), ("B", 2)] 3 rfl rfl).1,
   by decide, by decide,
   (C10_duplicates_once_per_occurrence_last_wins
      (Dependencies.init counterContainer ["A", "A", "B"]) 0
      [("A", 0), ("A", 1), ("B", 2)] 3 rfl rfl).2.2.2.2.2⟩

/-- C5 counterexample: on a fresh `Dependencies` over an unregistered type,
evaluating the membership test `A in deps` performs a container call (the
call trace is nonempty) and raises the provider's `ResolutionError` instead
of answering from the declared tuple, and `len(deps)` does the same —
`__contains__` and `__len__` trigger synchronous resolution, refuting the
claim that membership, length and truthiness never require or trigger
resolution and are determined solely by the declared tuple. -/
theorem C5_counterexample :
    (unresolvableDeps.containsOp 0 "A").calls = ["A"] ∧
    (unresolvableDeps.containsOp 0 "A").out
      = .error (.resolutionError
          "ResolutionError: no provider registered for A") ∧
    (unresolvableDeps.lenOp 0).calls = ["A"] ∧
    (unresolvableDeps.lenOp 0).out
      = .error (.resolutionError
          "ResolutionError: no provider registered for A") :=
  ⟨rfl, rfl, rfl, rfl⟩

/-- C5 amended: truthiness (`__bool__`) is determined solely by the declared
tuple and never resolves; the membership test and `len`, however, trigger
synchronous resolution when the object is unresolved (so they can raise
`ResolutionError`); when resolution succeeds they reflect the declared
tuple — membership iff the type is declared, length = number of distinct
declared types — and evaluating them again after resolution returns the
same values with no further container call. -/
theorem C5_amended_contains_len_resolve (d : Dependencies σ) (s : σ)
    (key : Ty) (ps : List (Ty × Val)) (s' : σ) (hres : d.resolved = none)
    (h : compPairs d.container.get s d.types = (ps, s', none)) :
    d.boolOp = decide (0 < d.types.length) ∧
    (d.containsOp s key).calls = d.types ∧
    (d.lenOp s).calls = d.types ∧
    (d.containsOp s key).out = .ok (decide (key ∈ d.types)) ∧
    (d.lenOp s).out = .ok d.types.toFinset.card ∧
    ((d.resolveOp s).deps.containsOp s' key).calls = [] ∧
    ((d.resolveOp s).deps.containsOp s' key).out
      = .ok (decide (key ∈ d.types)) ∧
    ((d.resolveOp s).deps.lenOp s').calls = [] ∧
    ((d.resolveOp s).deps.lenOp s').out = .ok d.types.toFinset.card ∧
    (d.resolveOp s).deps.boolOp = d.boolOp := by
  have hfst := compPairs_fst s d.types ps s' h
  have hchar := resolveOp_ok_char d s ps s' hres h
  have hbool : (pairsDict ps).hasKey key = decide (key ∈ d.types) := by
    by_cases hk : key ∈ d.types
    · have hh : (pairsDict ps).hasKey key = true := by
        rw [pairsDict_hasKey, hfst]
        exact hk
      rw [hh, decide_eq_true hk]
    · have hh : ¬(pairsDict ps).hasKey key = true := by
        rw [pairsDict_hasKey, hfst]
        exact hk
      rw [Bool.not_eq_true] at hh
      rw [hh, decide_eq_false hk]
  have hdeps : (d.resolveOp s).deps = d.withResolved (pairsDict ps) := by
    simp only [hchar]
  have hlen : (pairsDict ps).length = d.types.toFinset.card := by
    rw [pairsDict_length, hfst]
  refine ⟨rfl, ?_, ?_, ?_, ?_, ?_, ?_, ?_, ?_, ?_⟩
  · simp only [containsOp_resolveOk d s key ps s' hres h]
    exact hfst
  · simp only [lenOp_resolveOk d s ps s' hres h]
    exact hfst
  · simp only [containsOp_resolveOk d s key ps s' hres h]
    rw [hbool]
  · simp only [lenOp_resolveOk d s ps s' hres h]
    rw [hlen]
  · rw [hdeps, containsOp_resolved _ s' (pairsDict ps) key rfl]
  · rw [hdeps, containsOp_resolved _ s' (pairsDict ps) key rfl]
    simp only
    rw [hbool]
  · rw [hdeps, lenOp_resolved _ s' (pairsDict ps) rfl]
  · rw [hdeps, lenOp_resolved _ s' (pairsDict ps) rfl]
    simp only
    rw [hlen]
  · rw [hdeps]
    rfl

/-- Witness for the amended C5 on the two-member demo: truthiness, then
membership and length after triggered resolution. -/
theorem C5_amended_contains_len_resolve_witness :
    demoDeps.resolved = none ∧
    demoDeps.boolOp = true ∧
    (demoDeps.containsOp 0 "DB").out = .ok (decide ("DB" ∈ demoDeps.types)) ∧
    (demoDeps.lenOp 0).out = .ok (demoDeps.types.toFinset.card) :=
  ⟨rfl, rfl,
   (C5_amended_contains_len_resolve demoDeps 0 "DB"
      [("DB", 0), ("Cache", 1)] 2 rfl rfl).2.2.2.1,
   (C5_amended_contains_len_resolve demoDeps 0 "DB"
      [("DB", 0), ("Cache", 1)] 2 rfl rfl).2.2.2.2.1⟩

/-- C7: `ProviderRecord.create` returns a record whose `provider` and
`scope` fields are the given arguments and whose `cleanup` is the result of
the single `CleanupStrategy.analyze` call performed at creation time (the
analyzer call log is exactly `[provider]`); the record is a frozen
structure — the embedding, like the source dataclass, has no mutating
operation — and the stored decision depends only on the provider: any
analyzer agreeing on the provider yields the identical record, so the
decision is never recomputed. -/
theorem C7_provider_record_precomputed_cleanup {P : Type}
    (analyze alt : P → CleanupStrategy) (p : P) (sc : Scope) :
    (ProviderRecord.create analyze p sc).1.provider = p ∧
    (ProviderRecord.create analyze p sc).1.cleanup = analyze p ∧
    (ProviderRecord.create analyze p sc).1.scope = sc ∧
    (ProviderRecord.create analyze p sc).2 = [p] ∧
    (analyze p = alt p →
      ProviderRecord.create analyze p sc = ProviderRecord.create alt p sc) := by
  refine ⟨rfl, rfl, rfl, rfl, ?_⟩
  intro hagree
  unfold ProviderRecord.create
  rw [hagree]

/-- Witness for C7 at a concrete analyzer: the record stores the analyzer's
decision, and an analyzer agreeing on the provider yields the same record. -/
theorem C7_provider_record_precomputed_cleanup_witness :
    ((fun _ : Nat => CleanupStrategy.close) 0
      = (fun n : Nat =>
          if n = 0 then CleanupStrategy.close else CleanupStrategy.asyncClose) 0) ∧
    (ProviderRecord.create (fun _ : Nat => CleanupStrategy.close) 0
      Scope.singleton).1.cleanup = CleanupStrategy.close ∧
    ProviderRecord.create (fun _ : Nat => CleanupStrategy.close) 0
        Scope.singleton
      = ProviderRecord.create (fun n : Nat =>
          if n = 0 then CleanupStrategy.close else CleanupStrategy.asyncClose) 0
        Scope.singleton :=
  ⟨rfl,
   (C7_provider_record_precomputed_cleanup (fun _ => CleanupStrategy.close)
      (fun n => if n = 0 then CleanupStrategy.close
                else CleanupStrategy.asyncClose) 0 Scope.singleton).2.1,
   (C7_provider_record_precomputed_cleanup (fun _ => CleanupStrategy.close)
      (fun n => if n = 0 then CleanupStrategy.close
                else CleanupStrategy.asyncClose) 0 Scope.singleton).2.2.2.2 rfl⟩

/-- C1 (the layered store is modelled from the spec: `injx/contextual.py`
is absent from the source tree; model follows spec §4.3 and
`tests/test_contextual.py`): with request and/or session scopes open and a
singleton token stored (and its name not shadowed in any open layer), the
store resolves the token before the clear; executing `clear_singletons`
makes the very next resolve of that singleton token from within the
still-open nested scopes return absent, while leaving every open scope and
its contents untouched — live-view, not snapshot, semantics; and
`clear_all_contexts` empties every layer immediately, so afterwards every
token resolves to absent from within the open scopes. -/
theorem C1_clear_singletons_live_view (st : ScopeStore) (t : SToken)
    (v : Val)
    (hopen : st.requests ≠ [] ∨ st.sessions ≠ [])
    (hscope : t.scope = Scope.singleton)
    (hstored : st.singletons.lookup t.name = some v)
    (hreq : ∀ l ∈ st.requests, PyDict.lookup l t.name = none)
    (hses : ∀ l ∈ st.sessions, PyDict.lookup l t.name = none) :
    st.resolve t = some v ∧
    st.clearSingletons.resolve t = none ∧
    st.clearSingletons.requests = st.requests ∧
    st.clearSingletons.sessions = st.sessions ∧
    (∀ u, st.clearAllContexts.resolve u = none) := by
  have hr := lookupLayers_none st.requests t.name hreq
  have hs := lookupLayers_none st.sessions t.name hses
  refine ⟨?_, ?_, rfl, rfl, ?_⟩
  · unfold ScopeStore.resolve
    simp only [hr, hs, hstored]
  · unfold ScopeStore.clearSingletons ScopeStore.resolve
    simp only [hr, hs]
    rfl
  · intro u
    unfold ScopeStore.clearAllContexts ScopeStore.resolve
    simp only [lookupLayers_cleared]
    rfl

/-- The scenario of `test_singleton_live_view_after_clear`: a stored
singleton, then an open session with a session value, then an open request
with a request value. -/
def liveViewStore : ScopeStore :=
  ((((ScopeStore.empty.store ⟨"singleton", Scope.singleton⟩ 1).enterSession).store
      ⟨"session", Scope.session⟩ 2).enterRequest).store
    ⟨"request", Scope.request⟩ 3

/-- Witness for C1 replaying the test: inside the open session and request
scopes, clearing singletons makes the singleton token unresolvable at once
while the session and request values survive. -/
theorem C1_clear_singletons_live_view_witness :
    (liveViewStore.requests ≠ [] ∨ liveViewStore.sessions ≠ []) ∧
    liveViewStore.singletons.lookup "singleton" = some 1 ∧
    liveViewStore.resolve ⟨"singleton", Scope.singleton⟩ = some 1 ∧
    liveViewStore.clearSingletons.resolve ⟨"singleton", Scope.singleton⟩
      = none ∧
    liveViewStore.clearSingletons.resolve ⟨"session", Scope.session⟩
      = some 2 ∧
    liveViewStore.clearSingletons.resolve ⟨"request", Scope.request⟩
      = some 3 :=
  ⟨Or.inl (by decide), by decide,
   (C1_clear_singletons_live_view liveViewStore
      ⟨"singleton", Scope.singleton⟩ 1 (Or.inl (by decide)) rfl (by decide)
      (by decide) (by decide)).1,
   (C1_clear_singletons_live_view liveViewStore
      ⟨"singleton", Scope.singleton⟩ 1 (Or.inl (by decide)) rfl (by decide)
      (by decide) (by decide)).2.1,
   by decide, by decide⟩

end Injx
